import Mathlib

/-!
Verification of `leptos-declarative` (the `If`/`Then`/`ElseIf`/`Else`
conditional renderer in `src/if_.rs` and the portal registry in
`src/portal.rs`) against its natural-language specification.

The reactive runtime is modelled by an explicit environment: every
`ElseIf` signal is identified by a `Nat` and `env : Nat → Bool` gives the
current value of each signal; the top-level `If` signal is a separate
`Bool`.  The resolver closure (`if_.rs` lines 115–134) is embedded as a
function that, besides the rendered view, returns the *trace* of
observable events of one evaluation: every signal read (which is what the
reactive runtime uses to register dependencies) and every invocation of a
branch's content producer (`children`).  Content producers are identified
by an opaque `Nat` label; rendering block `j` is `View.frag j`.
-/

namespace LeptosDeclarative

/-- One branch of the conditional construct, mirroring `enum IfBlock` in
`src/if_.rs` (lines 181–199).  `If` is returned by `<Then>`, `ElseIf`
carries its own boolean signal (identified by a `Nat`), `Else` is the
fallback.  The `children` content producer is modelled by an opaque
`Nat` label. -/
inductive IfBlock where
  | If (children : Nat)
  | ElseIf (signal : Nat) (children : Nat)
  | Else (children : Nat)
deriving DecidableEq, Repr

namespace IfBlock

/-- `IfBlock::is_if` (`src/if_.rs` lines 210–212). -/
def is_if : IfBlock → Bool
  | .If _ => true
  | _ => false

/-- `IfBlock::is_else_if` (`src/if_.rs` lines 214–216). -/
def is_else_if : IfBlock → Bool
  | .ElseIf _ _ => true
  | _ => false

/-- `IfBlock::is_else` (`src/if_.rs` lines 218–220). -/
def is_else : IfBlock → Bool
  | .Else _ => true
  | _ => false

end IfBlock

/-- `IfBlock::is_true` (`src/if_.rs` lines 202–208): an `ElseIf` is true
iff its signal currently reads true; otherwise the block is "true" iff it
is an `Else`. -/
def is_true (env : Nat → Bool) : IfBlock → Bool
  | .ElseIf s _ => env s
  | b => b.is_else

/-- Observable events of one evaluation of the `If` resolver closure:
reads of the top-level signal, reads of an `ElseIf` signal (the act that
registers the signal as a reactive dependency), and invocations of a
block's content producer (`render`, which calls `children(cx)`), tagged
with the block's index in the branch list. -/
inductive Event where
  | readTop
  | readSig (signal : Nat)
  | invoke (blockIdx : Nat)
deriving DecidableEq, Repr

/-- The view produced by one evaluation: either the empty view
(`().into_view(cx)`, `src/if_.rs` line 132) or the fragment obtained by
rendering the block at index `blockIdx` of the branch list. -/
inductive View where
  | empty
  | frag (blockIdx : Nat)
deriving DecidableEq, Repr

/-- The subscription pass (`src/if_.rs` lines 121–125): for every block
*after the first* (`skip(1)`), if it is an `ElseIf`, read its signal
(`signal.with(|_| {})`) purely to register the dependency.  Returns the
reads this pass performs, in order. -/
def subscribeTail (blocks : List IfBlock) : List Event :=
  (blocks.drop 1).filterMap fun b =>
    match b with
    | .ElseIf s _ => some (Event.readSig s)
    | _ => none

/-- `if_blocks.find(|block| block.is_true())` (`src/if_.rs` line 129),
starting at index `i`: returns the index of the first block whose
`is_true` holds (if any) together with the signal reads `is_true`
performed along the way. -/
def findTrue (env : Nat → Bool) (i : Nat) : List IfBlock → Option Nat × List Event
  | [] => (none, [])
  | .If _ :: rest => findTrue env (i + 1) rest
  | .Else _ :: _ => (some i, [])
  | .ElseIf s _ :: rest =>
    if env s then (some i, [Event.readSig s])
    else
      let r := findTrue env (i + 1) rest
      (r.1, Event.readSig s :: r.2)

/-- The `If` resolver closure (`src/if_.rs` lines 115–134), one
evaluation.  First the subscription pass over `skip(1)` runs, then the
top-level signal is read.  If it is true, `if_blocks.next().unwrap()`
renders the first block (`unwrap` panics — modelled as `none` — when the
list is empty); otherwise the first block with `is_true` is rendered, and
if none exists the empty view is returned.  The second component is the
trace of signal reads and producer invocations, in order. -/
def evalIf (topSig : Bool) (env : Nat → Bool) (blocks : List IfBlock) :
    Option View × List Event :=
  let sub := subscribeTail blocks
  if topSig then
    match blocks.head? with
    | some _ => (some (View.frag 0), sub ++ [Event.readTop, Event.invoke 0])
    | none => (none, sub ++ [Event.readTop])
  else
    let r := findTrue env 0 blocks
    match r.1 with
    | some j => (some (View.frag j), sub ++ [Event.readTop] ++ r.2 ++ [Event.invoke j])
    | none => (some View.empty, sub ++ [Event.readTop] ++ r.2)

/-- `run_debug_checks` (`src/if_.rs` lines 237–271), with each `assert!`
panic embedded as `Except.error` carrying the assertion's message (and
the `unwrap()` on an empty block list as the standard unwrap panic).
The checks, in source order: the first block must be a `<Then>`
(`is_if`); there must be exactly one `is_if` block; if an `<Else>` is
present its (first) position must be the last index; and the number of
`is_else` blocks must equal 1 (`assert_eq!(count, 1)`). -/
def run_debug_checks (if_blocks : List IfBlock) : Except String Unit :=
  match if_blocks.head? with
  | none => .error "called `Option::unwrap()` on a `None` value"
  | some first =>
    if first.is_if = false then
      .error "`<Show />` must be the first child of `<If />`"
    else if (if_blocks.filter fun b => b.is_if).length ≠ 1 then
      .error "there must not be more than 1 `<Show />` children within `<If />`"
    else
      match if_blocks.findIdx? (fun b => b.is_else) with
      | some pos =>
        if pos ≠ if_blocks.length - 1 then
          .error "`<Else />` must be the last child of `<If />`"
        else if (if_blocks.filter fun b => b.is_else).length ≠ 1 then
          .error "there must not be more than 1 `<Else />` children within `<If />`"
        else .ok ()
      | none =>
        if (if_blocks.filter fun b => b.is_else).length ≠ 1 then
          .error "there must not be more than 1 `<Else />` children within `<If />`"
        else .ok ()

/-- `true` iff the block carries no currently-true `ElseIf` signal:
an `ElseIf` whose signal reads `false`, or any non-`ElseIf` block.
Used to phrase "all other `ElseIf` signals read false" decidably. -/
def sigFalseB (env : Nat → Bool) : IfBlock → Bool
  | .ElseIf s _ => !env s
  | _ => true

/-- `true` for events that are content-producer invocations. -/
def isInvoke : Event → Bool
  | .invoke _ => true
  | _ => false

/-! ## Portal registry (`src/portal.rs`)

The registry held by `PortalCtx` is
`Vec<(TypeId, RwSignal<Option<Children>>)>`.  A `TypeId` is modelled by a
`Nat`; the `id` argument of a portal site (a value of some `T: Any`) is
modelled as a pair of its type's `TypeId` and the value itself, since the
code only ever calls `id.type_id()`.  An `RwSignal<Option<Children>>` is
a mutable reference cell, so the state carries a backing store `slots`
(index = signal id, created by `create_rw_signal` in allocation order)
and the registry maps `TypeId`s to slot indices.  The content producer
`Children` is an opaque `Nat` label. -/

/-- The `id` argument of `PortalInput`/`PortalOutput`: a value (`value`)
of some concrete type whose `TypeId` is `ty`.  The code calls only
`id.type_id()` (`src/portal.rs` lines 138, 144, 193, 199), which returns
`ty`. -/
structure PortalId where
  ty : Nat
  value : Nat
deriving DecidableEq, Repr

/-- The portal state of one provider scope: the registry vector of
`PortalCtx` (`src/portal.rs` line 50) as `(TypeId, slot index)` pairs,
plus the backing store of every `RwSignal<Option<Children>>` created so
far, indexed by slot id. -/
structure PortalState where
  registry : List (Nat × Nat)
  slots : List (Option Nat)
deriving DecidableEq, Repr

/-- The state provided by `PortalProvider` (`src/portal.rs` line 87):
`store_value(cx, Default::default())`, i.e. an empty registry (and no
signals allocated yet). -/
def emptyPortalState : PortalState := ⟨[], []⟩

/-- `portals.iter().position(|(type_id, _)| *type_id == id.type_id())`
followed by `portals[pos].1` (`src/portal.rs` lines 136–140 and
191–195): the slot index of the first registry entry whose `TypeId`
matches, if any. -/
def findSlot (ty : Nat) : List (Nat × Nat) → Option Nat
  | [] => none
  | (t, s) :: rest => if t = ty then some s else findSlot ty rest

/-- The body of `PortalInput`'s `update_value` closure (`src/portal.rs`
lines 135–146): if a registry entry for the id's `TypeId` exists, `set`
its signal to `Some(children)`; otherwise create a new signal holding
`Some(children)` and push `(type_id, signal)` onto the registry. -/
def portalInputUpdate (id : PortalId) (content : Nat) (st : PortalState) :
    PortalState :=
  match findSlot id.ty st.registry with
  | some s => { st with slots := st.slots.set s (some content) }
  | none =>
    { registry := st.registry ++ [(id.ty, st.slots.length)],
      slots := st.slots ++ [some content] }

/-- The body of `PortalOutput`'s `update_value` closure (`src/portal.rs`
lines 190–205): return the existing signal for the id's `TypeId`, or
create a new empty (`None`) signal, push `(type_id, signal)` onto the
registry, and return it.  The returned slot index is what the output
site's render closure reads from then on. -/
def portalOutputLookup (id : PortalId) (st : PortalState) :
    PortalState × Nat :=
  match findSlot id.ty st.registry with
  | some s => (st, s)
  | none =>
    ({ registry := st.registry ++ [(id.ty, st.slots.length)],
       slots := st.slots ++ [none] }, st.slots.length)

/-- Reading slot `s` of the store: what `children.with(|children| ...)`
observes in `PortalOutput`'s render closure (`src/portal.rs` lines
209–217). -/
def readSlot (st : PortalState) (s : Nat) : Option Nat :=
  st.slots.getD s none

/-- The `PortalInput` component (`src/portal.rs` lines 119–147):
`use_context::<PortalCtx>(cx).expect(CONTEXT_NOT_FOUND_ERROR_MESSAGE)`
followed by the registry update.  The ambient context is modelled as an
`Option PortalState`; a missing provider makes `expect` panic with the
context-not-found message (`src/portal.rs` lines 45–47), embedded as
`Except.error`. -/
def PortalInput (ctx : Option PortalState) (id : PortalId) (content : Nat) :
    Except String PortalState :=
  match ctx with
  | none =>
    .error "failed to find `PortalCtx`, make sure you are using `<PortalProvider />` somewhere near the root of the app"
  | some st => .ok (portalInputUpdate id content st)

/-- The `PortalOutput` component (`src/portal.rs` lines 176–218): the
same `expect` on the ambient context, then the lookup-or-create of the
slot whose contents the returned render closure keeps reading. -/
def PortalOutput (ctx : Option PortalState) (id : PortalId) :
    Except String (PortalState × Nat) :=
  match ctx with
  | none =>
    .error "failed to find `PortalCtx`, make sure you are using `<PortalProvider />` somewhere near the root of the app"
  | some st => .ok (portalOutputLookup id st)

/-- One portal operation inside a provider scope: an input site
registering content under an id, or an output site looking up (or
creating) the slot for an id. -/
inductive PortalOp where
  | input (id : PortalId) (content : Nat)
  | output (id : PortalId)
deriving DecidableEq, Repr

/-- Apply one portal operation to the state. -/
def stepOp (op : PortalOp) (st : PortalState) : PortalState :=
  match op with
  | .input id c => portalInputUpdate id c st
  | .output id => (portalOutputLookup id st).1

/-- Apply a sequence of portal operations, starting from the empty state
created by `PortalProvider`. -/
def applyOps (ops : List PortalOp) : PortalState :=
  ops.foldl (fun st op => stepOp op st) emptyPortalState

/-- Well-formedness of a portal state: registry `TypeId` keys are
pairwise distinct, registered slot indices are pairwise distinct, and
every registered slot index points into the store.  Holds for every
state reachable from `emptyPortalState`. -/
@[reducible] def WF (st : PortalState) : Prop :=
  ((st.registry.map Prod.fst).Nodup) ∧
  ((st.registry.map Prod.snd).Nodup) ∧
  (∀ p ∈ st.registry, p.2 < st.slots.length)

/-! ## Helper lemmas for the conditional resolver -/

theorem findTrue_fst_append (env : Nat → Bool) (pre rest : List IfBlock)
    (i : Nat) (h : ∀ b ∈ pre, is_true env b = false) :
    (findTrue env i (pre ++ rest)).1 = (findTrue env (i + pre.length) rest).1 := by
  induction pre generalizing i with
  | nil => simp
  | cons b t ih =>
    have hb : is_true env b = false := h b (by simp)
    have ht : ∀ x ∈ t, is_true env x = false := fun x hx => h x (by simp [hx])
    cases b with
    | If c =>
      have := ih (i + 1) ht
      simpa [findTrue, Nat.add_assoc, Nat.add_comm 1 t.length] using this
    | ElseIf s c =>
      have hs : env s = false := by simpa [is_true] using hb
      have := ih (i + 1) ht
      simpa [findTrue, hs, Nat.add_assoc, Nat.add_comm 1 t.length] using this
    | Else c => simp [is_true, IfBlock.is_else] at hb

theorem findTrue_fst_none (env : Nat → Bool) (l : List IfBlock) (i : Nat)
    (h : ∀ b ∈ l, is_true env b = false) :
    (findTrue env i l).1 = none := by
  have := findTrue_fst_append env l [] i h
  simpa [findTrue] using this

theorem subscribeTail_not_invoke (blocks : List IfBlock) (e : Event)
    (he : e ∈ subscribeTail blocks) : isInvoke e = false := by
  simp only [subscribeTail, List.mem_filterMap] at he
  obtain ⟨b, -, hb⟩ := he
  cases b with
  | If c => simp at hb
  | Else c => simp at hb
  | ElseIf s c =>
    simp only [Option.some.injEq] at hb
    rw [← hb]
    simp [isInvoke]

theorem findTrue_not_invoke (env : Nat → Bool) (i : Nat) (l : List IfBlock)
    (e : Event) (he : e ∈ (findTrue env i l).2) : isInvoke e = false := by
  induction l generalizing i with
  | nil => simp [findTrue] at he
  | cons b t ih =>
    cases b with
    | If c => exact ih (i + 1) (by simpa [findTrue] using he)
    | Else c => simp [findTrue] at he
    | ElseIf s c =>
      by_cases hs : env s
      · simp [findTrue, hs] at he
        simp [he, isInvoke]
      · simp [findTrue, hs] at he
        rcases he with rfl | he
        · simp [isInvoke]
        · exact ih (i + 1) he

theorem readTop_mem_evalIf (topSig : Bool) (env : Nat → Bool)
    (blocks : List IfBlock) : Event.readTop ∈ (evalIf topSig env blocks).2 := by
  cases topSig with
  | true => cases hh : blocks.head? <;> simp [evalIf, hh]
  | false => cases hf : (findTrue env 0 blocks).1 <;> simp [evalIf, hf]

theorem mem_evalIf_of_mem_subscribeTail (topSig : Bool) (env : Nat → Bool)
    (blocks : List IfBlock) (e : Event) (he : e ∈ subscribeTail blocks) :
    e ∈ (evalIf topSig env blocks).2 := by
  cases topSig with
  | true => cases hh : blocks.head? <;> simp [evalIf, hh, he]
  | false => cases hf : (findTrue env 0 blocks).1 <;> simp [evalIf, hf, he]

/-! ## Claim theorems for the conditional resolver -/

/-- C1: dependency completeness of the conditional resolver.  For every
branch list whose first block is the `Then` block (the invariant the
validator enforces), every single evaluation — any top-level signal
value, any environment — reads the top-level signal and the signal of
every `ElseIf` branch, even those after the selected branch, so each is
registered as a reactive dependency and a later change re-triggers
evaluation. -/
theorem if_dependency_completeness (topSig : Bool) (env : Nat → Bool)
    (blocks : List IfBlock) (c0 : Nat)
    (h0 : blocks.head? = some (IfBlock.If c0)) :
    Event.readTop ∈ (evalIf topSig env blocks).2
    ∧ ∀ s c, IfBlock.ElseIf s c ∈ blocks →
        Event.readSig s ∈ (evalIf topSig env blocks).2 := by
  refine ⟨readTop_mem_evalIf topSig env blocks, fun s c hmem => ?_⟩
  apply mem_evalIf_of_mem_subscribeTail
  cases blocks with
  | nil => simp at h0
  | cons b t =>
    simp only [List.head?_cons, Option.some.injEq] at h0
    subst h0
    rcases (List.mem_cons.1 hmem) with h | h
    · exact absurd h (by simp)
    · simp only [subscribeTail, List.drop_succ_cons, List.drop_zero,
        List.mem_filterMap]
      exact ⟨IfBlock.ElseIf s c, h, rfl⟩

/-- Witness for C1 at the concrete branch list
`[Then, ElseIf(sig 3), ElseIf(sig 7)]` with the top-level signal true. -/
theorem if_dependency_completeness_witness :
    ([IfBlock.If 0, IfBlock.ElseIf 3 1, IfBlock.ElseIf 7 2].head?
        = some (IfBlock.If 0))
    ∧ (Event.readTop ∈
        (evalIf true (fun _ => true)
          [IfBlock.If 0, IfBlock.ElseIf 3 1, IfBlock.ElseIf 7 2]).2
      ∧ ∀ s c, IfBlock.ElseIf s c ∈
            [IfBlock.If 0, IfBlock.ElseIf 3 1, IfBlock.ElseIf 7 2] →
          Event.readSig s ∈
            (evalIf true (fun _ => true)
              [IfBlock.If 0, IfBlock.ElseIf 3 1, IfBlock.ElseIf 7 2]).2) :=
  ⟨by decide,
   if_dependency_completeness true (fun _ => true)
     [IfBlock.If 0, IfBlock.ElseIf 3 1, IfBlock.ElseIf 7 2] 0 (by decide)⟩

/-- C2 (code bug evidence): `run_debug_checks` rejects the branch list
consisting of a single `Then` block and no `Else` — the final
`assert_eq!` (`src/if_.rs` lines 266–270) requires the `is_else` count
to equal exactly 1, so the crate's own documented minimal usage
(`<If><Then>…</Then></If>`, doc example at `src/if_.rs` lines 30–43)
panics, with a message that itself claims only "no more than 1" is
required. -/
theorem run_debug_checks_rejects_lone_then :
    run_debug_checks [IfBlock.If 0] =
      Except.error
        "there must not be more than 1 `<Else />` children within `<If />`" := by
  rfl

/-- C3: first-match-wins.  For a branch list `Then :: mid ++ ElseIf(sig)
:: post` where the top-level signal reads false, every `ElseIf` in `mid`
and `post` reads false, `mid` contains no `Else` (the validator puts the
fallback last), and `sig` reads true, the resolver renders exactly the
block at index `mid.length + 1` — that `ElseIf`'s content, never an
earlier or later branch. -/
theorem if_first_match_wins (env : Nat → Bool) (c0 sig cj : Nat)
    (mid post : List IfBlock)
    (hmid : ∀ b ∈ mid, sigFalseB env b = true)
    (hmidNoElse : ∀ b ∈ mid, b.is_else = false)
    (_hpost : ∀ b ∈ post, sigFalseB env b = true)
    (htrue : env sig = true) :
    (evalIf false env
        (IfBlock.If c0 :: (mid ++ IfBlock.ElseIf sig cj :: post))).1
      = some (View.frag (mid.length + 1)) := by
  have hmid' : ∀ b ∈ mid, is_true env b = false := by
    intro b hb
    have h1 := hmid b hb
    have h2 := hmidNoElse b hb
    cases b with
    | If c => simp [is_true, IfBlock.is_else]
    | ElseIf s c =>
      simp only [sigFalseB, Bool.not_eq_true'] at h1
      simp [is_true, h1]
    | Else c => simp [IfBlock.is_else] at h2
  have hfst : (findTrue env 0
      (IfBlock.If c0 :: (mid ++ IfBlock.ElseIf sig cj :: post))).1
      = some (mid.length + 1) := by
    have step : findTrue env 0
        (IfBlock.If c0 :: (mid ++ IfBlock.ElseIf sig cj :: post))
        = findTrue env 1 (mid ++ IfBlock.ElseIf sig cj :: post) := by
      simp [findTrue]
    rw [step, findTrue_fst_append env mid _ 1 hmid']
    simp [findTrue, htrue, Nat.add_comm]
  simp [evalIf, hfst]

/-- Witness for C3: branch list `[Then, ElseIf(sig 0), ElseIf(sig 1),
Else]` with only signal 1 true renders block index 2. -/
theorem if_first_match_wins_witness :
    ((∀ b ∈ [IfBlock.ElseIf 0 5], sigFalseB (fun n => n == 1) b = true)
      ∧ (∀ b ∈ [IfBlock.ElseIf 0 5], b.is_else = false)
      ∧ (∀ b ∈ [IfBlock.Else 7], sigFalseB (fun n => n == 1) b = true)
      ∧ (fun n => n == 1) 1 = true)
    ∧ (evalIf false (fun n => n == 1)
        (IfBlock.If 4 :: ([IfBlock.ElseIf 0 5]
          ++ IfBlock.ElseIf 1 6 :: [IfBlock.Else 7]))).1
      = some (View.frag 2) :=
  ⟨⟨by decide, by decide, by decide, by decide⟩,
   if_first_match_wins (fun n => n == 1) 4 1 6 [IfBlock.ElseIf 0 5]
     [IfBlock.Else 7] (by decide) (by decide) (by decide) (by decide)⟩

/-- C4: whenever the top-level signal reads true, a branch list with its
single `Then` block at index 0 renders the `Then` block's content (block
index 0), whatever every other signal reads. -/
theorem if_renders_primary_when_top_true (env : Nat → Bool)
    (blocks : List IfBlock) (c0 : Nat)
    (h0 : blocks.head? = some (IfBlock.If c0))
    (h1 : (blocks.filter fun b => b.is_if).length = 1) :
    (evalIf true env blocks).1 = some (View.frag 0) := by
  cases blocks with
  | nil => simp at h0
  | cons b t => simp [evalIf]

/-- Witness for C4 at `[Then, ElseIf(sig 1), Else]` with every `ElseIf`
signal also reading true. -/
theorem if_renders_primary_when_top_true_witness :
    (([IfBlock.If 0, IfBlock.ElseIf 1 1, IfBlock.Else 2].head?
        = some (IfBlock.If 0))
      ∧ (([IfBlock.If 0, IfBlock.ElseIf 1 1, IfBlock.Else 2].filter
            fun b => b.is_if).length = 1))
    ∧ (evalIf true (fun _ => true)
        [IfBlock.If 0, IfBlock.ElseIf 1 1, IfBlock.Else 2]).1
      = some (View.frag 0) :=
  ⟨⟨by decide, by decide⟩,
   if_renders_primary_when_top_true (fun _ => true)
     [IfBlock.If 0, IfBlock.ElseIf 1 1, IfBlock.Else 2] 0
     (by decide) (by decide)⟩

/-- C5: when the top-level signal and every `ElseIf` signal read false,
a branch list with no `Else` renders the explicit empty view (not an
error), and a branch list of the form `pre ++ Else :: post` with no
`Else` in `pre` (the validator puts the fallback last) renders the
`Else` block's content (block index `pre.length`). -/
theorem if_fallback_or_empty (env : Nat → Bool) (blocks : List IfBlock)
    (hall : ∀ b ∈ blocks, sigFalseB env b = true) :
    ((∀ b ∈ blocks, b.is_else = false) →
        (evalIf false env blocks).1 = some View.empty)
    ∧ (∀ pre c post, blocks = pre ++ IfBlock.Else c :: post →
        (∀ b ∈ pre, b.is_else = false) →
        (evalIf false env blocks).1 = some (View.frag pre.length)) := by
  constructor
  · intro hnoelse
    have hfalse : ∀ b ∈ blocks, is_true env b = false := by
      intro b hb
      have h1 := hall b hb
      have h2 := hnoelse b hb
      cases b with
      | If c => simp [is_true, IfBlock.is_else]
      | ElseIf s c =>
        simp only [sigFalseB, Bool.not_eq_true'] at h1
        simp [is_true, h1]
      | Else c => simp [IfBlock.is_else] at h2
    have hfst := findTrue_fst_none env blocks 0 hfalse
    simp [evalIf, hfst]
  · intro pre c post hdec hpre
    subst hdec
    have hfalse : ∀ b ∈ pre, is_true env b = false := by
      intro b hb
      have h1 := hall b (by simp [hb])
      have h2 := hpre b hb
      cases b with
      | If c' => simp [is_true, IfBlock.is_else]
      | ElseIf s c' =>
        simp only [sigFalseB, Bool.not_eq_true'] at h1
        simp [is_true, h1]
      | Else c' => simp [IfBlock.is_else] at h2
    have hfst : (findTrue env 0 (pre ++ IfBlock.Else c :: post)).1
        = some pre.length := by
      rw [findTrue_fst_append env pre _ 0 hfalse]
      simp [findTrue]
    simp [evalIf, hfst]

/-- Witness for C5: with all signals false, `[Then, ElseIf(sig 2)]`
renders the empty view and `[Then, ElseIf(sig 2), Else]` renders the
`Else` block (index 2). -/
theorem if_fallback_or_empty_witness :
    (∀ b ∈ [IfBlock.If 0, IfBlock.ElseIf 2 1],
        sigFalseB (fun _ => false) b = true)
    ∧ (evalIf false (fun _ => false)
        [IfBlock.If 0, IfBlock.ElseIf 2 1]).1 = some View.empty
    ∧ (evalIf false (fun _ => false)
        [IfBlock.If 0, IfBlock.ElseIf 2 1, IfBlock.Else 3]).1
      = some (View.frag 2) :=
  ⟨by decide,
   (if_fallback_or_empty (fun _ => false) [IfBlock.If 0, IfBlock.ElseIf 2 1]
     (by decide)).1 (by decide),
   (if_fallback_or_empty (fun _ => false)
     [IfBlock.If 0, IfBlock.ElseIf 2 1, IfBlock.Else 3] (by decide)).2
     [IfBlock.If 0, IfBlock.ElseIf 2 1] 3 [] (by decide) (by decide)⟩

/-- C8: laziness of content producers.  In every single evaluation, at
most one content producer is invoked, and any producer that is invoked
is the one of the rendered (selected) block — producers of unselected
branches are never invoked. -/
theorem if_lazy_content_producers (topSig : Bool) (env : Nat → Bool)
    (blocks : List IfBlock) :
    (((evalIf topSig env blocks).2.filter isInvoke).length ≤ 1)
    ∧ (∀ j, Event.invoke j ∈ (evalIf topSig env blocks).2 →
        (evalIf topSig env blocks).1 = some (View.frag j)) := by
  have hsub : ∀ e ∈ subscribeTail blocks, ¬(isInvoke e = true) := by
    intro e he
    simp [subscribeTail_not_invoke blocks e he]
  have hsubnil : (subscribeTail blocks).filter isInvoke = [] :=
    List.filter_eq_nil_iff.2 hsub
  cases topSig with
  | true =>
    cases hh : blocks.head? with
    | some b =>
      have htr : (evalIf true env blocks).2
          = subscribeTail blocks ++ [Event.readTop, Event.invoke 0] := by
        simp [evalIf, hh]
      constructor
      · simp [htr, List.filter_append, hsubnil, isInvoke]
      · intro j hj
        rw [htr] at hj
        rcases List.mem_append.1 hj with hj | hj
        · exact absurd (subscribeTail_not_invoke blocks _ hj) (by simp [isInvoke])
        · simp only [List.mem_cons, List.mem_singleton, List.not_mem_nil,
            or_false, Event.invoke.injEq, reduceCtorEq, false_or] at hj
          subst hj
          simp [evalIf, hh]
    | none =>
      have htr : (evalIf true env blocks).2
          = subscribeTail blocks ++ [Event.readTop] := by
        simp [evalIf, hh]
      constructor
      · simp [htr, List.filter_append, hsubnil, isInvoke]
      · intro j hj
        rw [htr] at hj
        rcases List.mem_append.1 hj with hj | hj
        · exact absurd (subscribeTail_not_invoke blocks _ hj) (by simp [isInvoke])
        · simp at hj
  | false =>
    have hft : ∀ e ∈ (findTrue env 0 blocks).2, ¬(isInvoke e = true) := by
      intro e he
      simp [findTrue_not_invoke env 0 blocks e he]
    have hftnil : ((findTrue env 0 blocks).2.filter isInvoke) = [] :=
      List.filter_eq_nil_iff.2 hft
    cases hf : (findTrue env 0 blocks).1 with
    | some j0 =>
      have htr : (evalIf false env blocks).2
          = subscribeTail blocks ++ [Event.readTop]
            ++ (findTrue env 0 blocks).2 ++ [Event.invoke j0] := by
        simp [evalIf, hf]
      constructor
      · simp [htr, List.filter_append, hsubnil, hftnil, isInvoke]
      · intro j hj
        rw [htr] at hj
        rcases List.mem_append.1 hj with hj | hj
        · rcases List.mem_append.1 hj with hj | hj
          · rcases List.mem_append.1 hj with hj | hj
            · exact absurd (subscribeTail_not_invoke blocks _ hj)
                (by simp [isInvoke])
            · simp at hj
          · exact absurd (findTrue_not_invoke env 0 blocks _ hj)
              (by simp [isInvoke])
        · simp only [List.mem_singleton, Event.invoke.injEq] at hj
          subst hj
          simp [evalIf, hf]
    | none =>
      have htr : (evalIf false env blocks).2
          = subscribeTail blocks ++ [Event.readTop]
            ++ (findTrue env 0 blocks).2 := by
        simp [evalIf, hf]
      constructor
      · simp [htr, List.filter_append, hsubnil, hftnil, isInvoke]
      · intro j hj
        rw [htr] at hj
        rcases List.mem_append.1 hj with hj | hj
        · rcases List.mem_append.1 hj with hj | hj
          · exact absurd (subscribeTail_not_invoke blocks _ hj)
              (by simp [isInvoke])
          · simp at hj
        · exact absurd (findTrue_not_invoke env 0 blocks _ hj)
            (by simp [isInvoke])

/-! ## Helper lemmas for the portal registry -/

theorem findSlot_mem {ty s : Nat} {reg : List (Nat × Nat)}
    (h : findSlot ty reg = some s) : (ty, s) ∈ reg := by
  induction reg with
  | nil => simp [findSlot] at h
  | cons p rest ih =>
    obtain ⟨t, s'⟩ := p
    simp only [findSlot] at h
    split at h
    · next heq =>
      simp only [Option.some.injEq] at h
      subst heq
      subst h
      simp
    · next hne => simp [ih h]

theorem findSlot_none_not_mem {ty : Nat} {reg : List (Nat × Nat)}
    (h : findSlot ty reg = none) : ty ∉ reg.map Prod.fst := by
  induction reg with
  | nil => simp
  | cons p rest ih =>
    obtain ⟨t, s'⟩ := p
    simp only [findSlot] at h
    split at h
    · exact absurd h (by simp)
    · next hne =>
      simp only [List.map_cons, List.mem_cons]
      rintro (rfl | hmem)
      · exact hne rfl
      · exact ih h hmem

theorem findSlot_append_of_some {ty s : Nat} {reg : List (Nat × Nat)}
    (l2 : List (Nat × Nat)) (h : findSlot ty reg = some s) :
    findSlot ty (reg ++ l2) = some s := by
  induction reg with
  | nil => simp [findSlot] at h
  | cons p rest ih =>
    obtain ⟨t, s'⟩ := p
    rw [List.cons_append]
    simp only [findSlot] at h ⊢
    split at h
    · next heq => simp [heq, h]
    · next hne =>
      rw [if_neg hne]
      exact ih h

theorem findSlot_append_of_none {ty : Nat} {reg : List (Nat × Nat)}
    (l2 : List (Nat × Nat)) (h : findSlot ty reg = none) :
    findSlot ty (reg ++ l2) = findSlot ty l2 := by
  induction reg with
  | nil => simp
  | cons p rest ih =>
    obtain ⟨t, s'⟩ := p
    rw [List.cons_append]
    simp only [findSlot] at h ⊢
    split at h
    · exact absurd h (by simp)
    · next hne =>
      rw [if_neg hne]
      exact ih h

theorem getD_set_self {α : Type} (l : List α) (n : Nat) (a d : α)
    (h : n < l.length) : (l.set n a).getD n d = a := by
  induction l generalizing n with
  | nil => simp at h
  | cons x t ih =>
    cases n with
    | zero => simp
    | succ m =>
      simp only [List.set_cons_succ, List.getD_cons_succ]
      exact ih m (by simpa using h)

theorem getD_append_self {α : Type} (l : List α) (a d : α) :
    (l ++ [a]).getD l.length d = a := by
  induction l with
  | nil => simp
  | cons x t ih => simp [ih]

theorem nodup_append_singleton {α : Type} {l : List α} {a : α}
    (h : l.Nodup) (ha : a ∉ l) : (l ++ [a]).Nodup := by
  refine List.nodup_append.2 ⟨h, by simp, ?_⟩
  intro x hx
  simp only [List.mem_singleton]
  rintro rfl
  exact ha hx

/-- Appending a fresh `(ty, slots.length)` entry together with one new
slot preserves well-formedness. -/
theorem WF_append_fresh (st : PortalState) (h : WF st) (ty : Nat)
    (x : Option Nat) (hf : findSlot ty st.registry = none) :
    WF ⟨st.registry ++ [(ty, st.slots.length)], st.slots ++ [x]⟩ := by
  obtain ⟨h1, h2, h3⟩ := h
  refine ⟨?_, ?_, ?_⟩
  · rw [List.map_append]
    exact nodup_append_singleton h1 (by simpa using findSlot_none_not_mem hf)
  · rw [List.map_append]
    refine nodup_append_singleton h2 ?_
    intro hmem
    simp only [List.mem_map] at hmem
    obtain ⟨p, hp, hlen⟩ := hmem
    have hlt := h3 p hp
    rw [hlen] at hlt
    exact Nat.lt_irrefl _ hlt
  · intro p hp
    simp only [List.length_append, List.length_singleton]
    rcases List.mem_append.1 hp with hp | hp
    · exact Nat.lt_succ_of_lt (h3 p hp)
    · simp only [List.mem_singleton] at hp
      subst hp
      simp

/-- `stepOp` preserves well-formedness. -/
theorem WF_stepOp (op : PortalOp) (st : PortalState) (h : WF st) :
    WF (stepOp op st) := by
  obtain ⟨h1, h2, h3⟩ := h
  cases op with
  | input id c =>
    show WF (portalInputUpdate id c st)
    cases hf : findSlot id.ty st.registry with
    | some s =>
      simp only [portalInputUpdate, hf]
      exact ⟨h1, h2, fun p hp => by simpa using h3 p hp⟩
    | none =>
      simp only [portalInputUpdate, hf]
      exact WF_append_fresh st ⟨h1, h2, h3⟩ id.ty (some c) hf
  | output id =>
    show WF (portalOutputLookup id st).1
    cases hf : findSlot id.ty st.registry with
    | some s =>
      simp only [portalOutputLookup, hf]
      exact ⟨h1, h2, h3⟩
    | none =>
      simp only [portalOutputLookup, hf]
      exact WF_append_fresh st ⟨h1, h2, h3⟩ id.ty none hf

/-- Every state reached by a fold of `stepOp` from a well-formed state is
well-formed. -/
theorem WF_foldl (ops : List PortalOp) (st : PortalState) (h : WF st) :
    WF (ops.foldl (fun st op => stepOp op st) st) := by
  induction ops generalizing st with
  | nil => exact h
  | cons op rest ih => exact ih (stepOp op st) (WF_stepOp op st h)

/-- Every state reachable from the provider's empty state is
well-formed. -/
theorem WF_applyOps (ops : List PortalOp) : WF (applyOps ops) :=
  WF_foldl ops emptyPortalState (by refine ⟨?_, ?_, ?_⟩ <;> simp [emptyPortalState])

/-- The registry only ever grows by appending entries. -/
theorem stepOp_registry_extends (op : PortalOp) (st : PortalState) :
    ∃ tail, (stepOp op st).registry = st.registry ++ tail := by
  cases op with
  | input id c =>
    show ∃ tail, (portalInputUpdate id c st).registry = st.registry ++ tail
    cases hf : findSlot id.ty st.registry with
    | some s => exact ⟨[], by simp [portalInputUpdate, hf]⟩
    | none =>
      exact ⟨[(id.ty, st.slots.length)], by simp [portalInputUpdate, hf]⟩
  | output id =>
    show ∃ tail, (portalOutputLookup id st).1.registry = st.registry ++ tail
    cases hf : findSlot id.ty st.registry with
    | some s => exact ⟨[], by simp [portalOutputLookup, hf]⟩
    | none =>
      exact ⟨[(id.ty, st.slots.length)], by simp [portalOutputLookup, hf]⟩

/-! ## Claim theorems for the portal registry -/

/-- C6: portal declaration-order irrelevance.  For every well-formed
registry state (every registered slot index points into the store),
every identifier and content: running the input site's
register-or-update and then the output site's read-or-create, or the
output site's read-or-create and then the input site's
register-or-update, in either order leaves the slot the output site
references reading `some content`. -/
theorem portal_declaration_order_irrelevant (st : PortalState)
    (id : PortalId) (content : Nat)
    (hwf : ∀ p ∈ st.registry, p.2 < st.slots.length) :
    (readSlot (portalOutputLookup id (portalInputUpdate id content st)).1
        (portalOutputLookup id (portalInputUpdate id content st)).2
      = some content)
    ∧ (readSlot (portalInputUpdate id content (portalOutputLookup id st).1)
        (portalOutputLookup id st).2
      = some content) := by
  constructor
  · cases hf : findSlot id.ty st.registry with
    | some s =>
      have hmem := findSlot_mem hf
      have hlt : s < st.slots.length := hwf _ hmem
      have h1 : portalInputUpdate id content st
          = { st with slots := st.slots.set s (some content) } := by
        simp [portalInputUpdate, hf]
      rw [h1]
      have h2 : portalOutputLookup id
          { st with slots := st.slots.set s (some content) }
          = ({ st with slots := st.slots.set s (some content) }, s) := by
        simp [portalOutputLookup, hf]
      rw [h2]
      simp only [readSlot]
      exact getD_set_self st.slots s (some content) none hlt
    | none =>
      have h1 : portalInputUpdate id content st
          = { registry := st.registry ++ [(id.ty, st.slots.length)],
              slots := st.slots ++ [some content] } := by
        simp [portalInputUpdate, hf]
      rw [h1]
      have hfind : findSlot id.ty (st.registry ++ [(id.ty, st.slots.length)])
          = some st.slots.length := by
        rw [findSlot_append_of_none _ hf]
        simp [findSlot]
      have h2 : portalOutputLookup id
          ({ registry := st.registry ++ [(id.ty, st.slots.length)],
             slots := st.slots ++ [some content] } : PortalState)
          = ({ registry := st.registry ++ [(id.ty, st.slots.length)],
               slots := st.slots ++ [some content] }, st.slots.length) := by
        simp [portalOutputLookup, hfind]
      rw [h2]
      simp only [readSlot]
      exact getD_append_self st.slots (some content) none
  · cases hf : findSlot id.ty st.registry with
    | some s =>
      have hmem := findSlot_mem hf
      have hlt : s < st.slots.length := hwf _ hmem
      have h1 : portalOutputLookup id st = (st, s) := by
        simp [portalOutputLookup, hf]
      rw [h1]
      have h2 : portalInputUpdate id content st
          = { st with slots := st.slots.set s (some content) } := by
        simp [portalInputUpdate, hf]
      rw [h2]
      simp only [readSlot]
      exact getD_set_self st.slots s (some content) none hlt
    | none =>
      have h1 : portalOutputLookup id st
          = ({ registry := st.registry ++ [(id.ty, st.slots.length)],
               slots := st.slots ++ [none] }, st.slots.length) := by
        simp [portalOutputLookup, hf]
      rw [h1]
      have hfind : findSlot id.ty (st.registry ++ [(id.ty, st.slots.length)])
          = some st.slots.length := by
        rw [findSlot_append_of_none _ hf]
        simp [findSlot]
      have h2 : portalInputUpdate id content
          ({ registry := st.registry ++ [(id.ty, st.slots.length)],
             slots := st.slots ++ [none] } : PortalState)
          = { registry := st.registry ++ [(id.ty, st.slots.length)],
              slots := (st.slots ++ [none]).set st.slots.length
                (some content) } := by
        simp [portalInputUpdate, hfind]
      rw [h2]
      simp only [readSlot]
      exact getD_set_self (st.slots ++ [none]) st.slots.length (some content)
        none (by simp)

/-- Witness for C6 at the empty provider state with identifier type 0
and content 42. -/
theorem portal_declaration_order_irrelevant_witness :
    (∀ p ∈ emptyPortalState.registry, p.2 < emptyPortalState.slots.length)
    ∧ ((readSlot
          (portalOutputLookup ⟨0, 0⟩
            (portalInputUpdate ⟨0, 0⟩ 42 emptyPortalState)).1
          (portalOutputLookup ⟨0, 0⟩
            (portalInputUpdate ⟨0, 0⟩ 42 emptyPortalState)).2
        = some 42)
      ∧ (readSlot
          (portalInputUpdate ⟨0, 0⟩ 42
            (portalOutputLookup ⟨0, 0⟩ emptyPortalState).1)
          (portalOutputLookup ⟨0, 0⟩ emptyPortalState).2
        = some 42)) :=
  ⟨by decide,
   portal_declaration_order_irrelevant emptyPortalState ⟨0, 0⟩ 42 (by decide)⟩

/-- C7: with no enclosing `PortalProvider` (no ambient `PortalCtx`
context), both the `PortalInput` and the `PortalOutput` component fail
immediately and fatally with the context-not-found message, for every
identifier and content. -/
theorem portal_no_provider_fails (id : PortalId) (content : Nat) :
    PortalInput none id content =
      Except.error "failed to find `PortalCtx`, make sure you are using `<PortalProvider />` somewhere near the root of the app"
    ∧ PortalOutput none id =
      Except.error "failed to find `PortalCtx`, make sure you are using `<PortalProvider />` somewhere near the root of the app" :=
  ⟨rfl, rfl⟩

/-- C9: registry uniqueness invariant.  After any sequence of portal
input/output operations starting from the provider's empty registry, the
registry holds at most one entry per identifier (`TypeId`), and no
operation ever removes an entry — each step leaves the registry as the
old registry plus (possibly) one appended entry. -/
theorem portal_registry_unique_and_monotone (ops : List PortalOp) :
    (((applyOps ops).registry.map Prod.fst).Nodup)
    ∧ (∀ op : PortalOp, ∃ tail,
        (stepOp op (applyOps ops)).registry
          = (applyOps ops).registry ++ tail) :=
  ⟨(WF_applyOps ops).1, fun op => stepOp_registry_extends op (applyOps ops)⟩

/-- C10: portal identifier equality is type identity.  The registry
operations depend only on the `TypeId` of the `id` argument and discard
its value, and — from any well-formed state — two consecutively mounted
output sites reference the same slot iff their `id` arguments have the
same type. -/
theorem portal_id_is_type_identity (st : PortalState) (a b : PortalId)
    (content v : Nat) (hwf : WF st) :
    (portalInputUpdate a content st
        = portalInputUpdate ⟨a.ty, v⟩ content st)
    ∧ (portalOutputLookup a st = portalOutputLookup ⟨a.ty, v⟩ st)
    ∧ ((portalOutputLookup b (portalOutputLookup a st).1).2
          = (portalOutputLookup a st).2
        ↔ b.ty = a.ty) := by
  obtain ⟨h1, h2, h3⟩ := hwf
  refine ⟨rfl, rfl, ?_⟩
  cases hfa : findSlot a.ty st.registry with
  | some s1 =>
    have key1 : (portalOutputLookup a st).1 = st := by
      simp [portalOutputLookup, hfa]
    have key2 : (portalOutputLookup a st).2 = s1 := by
      simp [portalOutputLookup, hfa]
    rw [key1, key2]
    cases hfb : findSlot b.ty st.registry with
    | some s2 =>
      have key3 : (portalOutputLookup b st).2 = s2 := by
        simp [portalOutputLookup, hfb]
      rw [key3]
      constructor
      · intro hss
        subst hss
        have hma := findSlot_mem hfa
        have hmb := findSlot_mem hfb
        have hpair : (b.ty, s2) = (a.ty, s2) :=
          List.inj_on_of_nodup_map h2 hmb hma rfl
        exact congrArg Prod.fst hpair
      · intro hba
        rw [hba] at hfb
        rw [hfa] at hfb
        exact (Option.some.inj hfb).symm
    | none =>
      have key3 : (portalOutputLookup b st).2 = st.slots.length := by
        simp [portalOutputLookup, hfb]
      rw [key3]
      have hlt : s1 < st.slots.length := h3 _ (findSlot_mem hfa)
      constructor
      · intro hss
        exact absurd hss.symm (Nat.ne_of_lt hlt)
      · intro hba
        rw [hba] at hfb
        rw [hfa] at hfb
        exact absurd hfb (by simp)
  | none =>
    have key1 : (portalOutputLookup a st).1
        = { registry := st.registry ++ [(a.ty, st.slots.length)],
            slots := st.slots ++ [none] } := by
      simp [portalOutputLookup, hfa]
    have key2 : (portalOutputLookup a st).2 = st.slots.length := by
      simp [portalOutputLookup, hfa]
    rw [key1, key2]
    by_cases hba : b.ty = a.ty
    · have hfind : findSlot b.ty (st.registry ++ [(a.ty, st.slots.length)])
          = some st.slots.length := by
        rw [hba, findSlot_append_of_none _ hfa]
        simp [findSlot]
      have key3 : (portalOutputLookup b
          ({ registry := st.registry ++ [(a.ty, st.slots.length)],
             slots := st.slots ++ [none] } : PortalState)).2
          = st.slots.length := by
        simp [portalOutputLookup, hfind]
      rw [key3]
      simp [hba]
    · cases hfb : findSlot b.ty st.registry with
      | some s2 =>
        have hfind : findSlot b.ty (st.registry ++ [(a.ty, st.slots.length)])
            = some s2 := findSlot_append_of_some _ hfb
        have key3 : (portalOutputLookup b
            ({ registry := st.registry ++ [(a.ty, st.slots.length)],
               slots := st.slots ++ [none] } : PortalState)).2 = s2 := by
          simp [portalOutputLookup, hfind]
        rw [key3]
        have hlt : s2 < st.slots.length := h3 _ (findSlot_mem hfb)
        constructor
        · intro hss
          exact absurd hss (Nat.ne_of_lt hlt)
        · intro h
          exact absurd h hba
      | none =>
        have hfind : findSlot b.ty (st.registry ++ [(a.ty, st.slots.length)])
            = none := by
          rw [findSlot_append_of_none _ hfb]
          show (if a.ty = b.ty then some st.slots.length else none) = none
          rw [if_neg (fun h => hba h.symm)]
        have key3 : (portalOutputLookup b
            ({ registry := st.registry ++ [(a.ty, st.slots.length)],
               slots := st.slots ++ [none] } : PortalState)).2
            = (st.slots ++ [none]).length := by
          simp [portalOutputLookup, hfind]
        rw [key3]
        constructor
        · intro hss
          simp at hss
        · intro h
          exact absurd h hba

/-- Witness for C10 at the empty provider state with two ids of distinct
types. -/
theorem portal_id_is_type_identity_witness :
    WF emptyPortalState
    ∧ ((portalInputUpdate ⟨0, 1⟩ 9 emptyPortalState
          = portalInputUpdate ⟨0, 5⟩ 9 emptyPortalState)
      ∧ (portalOutputLookup ⟨0, 1⟩ emptyPortalState
          = portalOutputLookup ⟨0, 5⟩ emptyPortalState)
      ∧ ((portalOutputLookup ⟨2, 3⟩
            (portalOutputLookup ⟨0, 1⟩ emptyPortalState).1).2
            = (portalOutputLookup ⟨0, 1⟩ emptyPortalState).2
          ↔ (2 : Nat) = 0)) :=
  ⟨by refine ⟨?_, ?_, ?_⟩ <;> simp [emptyPortalState],
   portal_id_is_type_identity emptyPortalState ⟨0, 1⟩ ⟨2, 3⟩ 9 5
     (by refine ⟨?_, ?_, ?_⟩ <;> simp [emptyPortalState])⟩

end LeptosDeclarative
